import Mathlib

/-!
Verification of the plain-socket file-transfer protocol (Practice 1).

Shallow embedding of the code in "src/Practice 1/file_server.py" and
"src/Practice 1/file_client.py".  Bytes are Nat (values below 256 on the
wire); a TCP connection delivering a byte stream is modelled as a list of
non-empty fragments, and conn.recv(n) as a bounded read that returns at
most n bytes taken from the front of the first pending fragment (the
read-whatever-is-available-up-to-n semantics of BSD sockets).
-/

namespace FileTransfer

/-- Model of struct.pack of an unsigned big-endian integer into k bytes:
the format !I is packBE 4, the format !Q is packBE 8. -/
def packBE : Nat → Nat → List Nat
  | 0, _ => []
  | k + 1, n => packBE k (n / 256) ++ [n % 256]

/-- Model of struct.unpack of an unsigned big-endian integer from a byte
string whose length already matched the format width. -/
def unpackBE (bs : List Nat) : Nat :=
  bs.foldl (fun acc b => acc * 256 + b) 0

theorem packBE_length (k n : Nat) : (packBE k n).length = k := by
  induction k generalizing n with
  | zero => rfl
  | succ k ih => simp [packBE, ih]

theorem unpackBE_packBE (k n : Nat) : unpackBE (packBE k n) = n % 256 ^ k := by
  induction k generalizing n with
  | zero => simp [packBE, unpackBE, Nat.mod_one]
  | succ k ih =>
    have hM : (256 : Nat) ^ (k + 1) = 256 * 256 ^ k := by ring
    have hdiv : n % 256 ^ (k + 1) / 256 = n / 256 % 256 ^ k := by
      rw [hM, Nat.mod_mul_right_div_self]
    have hmod : n % 256 ^ (k + 1) % 256 = n % 256 := by
      apply Nat.mod_mod_of_dvd
      rw [hM]
      exact dvd_mul_right 256 (256 ^ k)
    have hfold : unpackBE (packBE (k + 1) n)
        = unpackBE (packBE k (n / 256)) * 256 + n % 256 := by
      simp [packBE, unpackBE, List.foldl_append]
    rw [hfold, ih]
    have hdm := Nat.div_add_mod (n % 256 ^ (k + 1)) 256
    omega

/-- Model of conn.recv(n): the transport hands back at most n bytes from
the front of the first pending fragment; the unread rest of that fragment
stays queued.  An exhausted fragment list means the peer has closed, and
recv returns the empty byte string. -/
def recv (n : Nat) (frags : List (List Nat)) : List Nat × List (List Nat) :=
  match frags with
  | [] => ([], [])
  | f :: rest =>
    let data := f.take n
    let leftover := f.drop n
    (data, if leftover = [] then rest else leftover :: rest)

theorem recv_length_le (n : Nat) (frags : List (List Nat)) :
    (recv n frags).1.length ≤ n := by
  match frags with
  | [] => simp [recv]
  | f :: rest => simp [recv]

/-- Byte string of the acknowledgment token METADATA_OK sent by the
receiver after parsing the header. -/
def METADATA_OK : List Nat := [77, 69, 84, 65, 68, 65, 84, 65, 95, 79, 75]

/-- Byte string of the completion token OK. -/
def OK : List Nat := [79, 75]

/-- Byte string of the failure token ERROR sent by the exception
handler of receive_file. -/
def ERROR : List Nat := [69, 82, 82, 79, 82]

/-- Outcome of the header-parsing phase of receive_file: noData models the
early return when the first recv yields nothing, parseError models a
struct.unpack exception on a short fixed-width field (caught by the
handler, which then sends ERROR), and parsed carries the decoded name
bytes and declared size. -/
inductive HeaderResult
  | noData
  | parseError
  | parsed (name : List Nat) (size : Nat)
  deriving DecidableEq

/-- Header-parsing phase of receive_file, lines 10 to 26 of
file_server.py: recv(4) and unpack with format !I (unpack raises unless
exactly 4 bytes arrived), recv(filename_len) taken as the name with no
length check, recv(8) and unpack with format !Q (raises unless exactly 8
bytes arrived).  Returns the result and the still-queued fragments. -/
def receiveHeader (frags : List (List Nat)) : HeaderResult × List (List Nat) :=
  let r1 := recv 4 frags
  if r1.1 = [] then (HeaderResult.noData, r1.2)
  else if r1.1.length ≠ 4 then (HeaderResult.parseError, r1.2)
  else
    let flen := unpackBE r1.1
    let r2 := recv flen r1.2
    let r3 := recv 8 r2.2
    if r3.1.length ≠ 8 then (HeaderResult.parseError, r3.2)
    else (HeaderResult.parsed r2.1 (unpackBE r3.1), r3.2)

/-- The receive loop of receive_file, lines 38 to 51 of file_server.py:
while bytes_received is below filesize, request
min 4096 (filesize - bytes_received) bytes; an empty recv result breaks
out of the loop.  Returns the final bytes_received, whether the loop ended
on an empty recv (peer closed early), and the trace of
(remaining, requested) pairs, one per recv call issued. -/
def receiveLoop (filesize received : Nat) (frags : List (List Nat)) :
    Nat × Bool × List (Nat × Nat) :=
  if h : received < filesize then
    let request := min 4096 (filesize - received)
    let r := recv request frags
    if hd : r.1 = [] then (received, true, [(filesize - received, request)])
    else
      let step := receiveLoop filesize (received + r.1.length) r.2
      (step.1, step.2.1, (filesize - received, request) :: step.2.2)
  else (received, false, [])
termination_by filesize - received
decreasing_by
  simp_wf
  have hlen : 0 < (recv (4096 ⊓ (filesize - received)) frags).1.length :=
    List.length_pos.mpr hd
  omega

/-- Name of the output directory hard-coded in receive_file. -/
def receivedFilesDir : String := "received_files"

/-- Model of os.makedirs with exist_ok set, over a filesystem reduced to
its set of existing directories: creates the directory if absent, leaves
the filesystem unchanged if it already exists, and never fails. -/
def makedirs_exist_ok (dirs : List String) (d : String) : List String :=
  if d ∈ dirs then dirs else d :: dirs

/-- Observable outcome of one receive_file session: the byte-string
tokens sent to the peer in order, the final bytes_received counter,
whether the receive loop ended on an empty recv, whether the success
message was printed, whether the destination file was opened, and the
directory set after the session. -/
structure ReceiveOutcome where
  tokens : List (List Nat)
  bytesReceived : Nat
  earlyClose : Bool
  reportedSuccess : Bool
  openedDest : Bool
  dirsAfter : List String
  deriving DecidableEq

/-- Model of receive_file in file_server.py on its non-raising paths: an
empty first recv returns silently; a header field of the wrong width makes
struct.unpack raise, and the exception handler sends ERROR; otherwise the
code sends METADATA_OK, runs makedirs on received_files, opens the
destination, runs the receive loop, prints the success message and sends
OK - regardless of whether the loop ended early. -/
def receive_file (frags : List (List Nat)) (dirs : List String) :
    ReceiveOutcome :=
  match receiveHeader frags with
  | (HeaderResult.noData, _) =>
    { tokens := [], bytesReceived := 0, earlyClose := false,
      reportedSuccess := false, openedDest := false, dirsAfter := dirs }
  | (HeaderResult.parseError, _) =>
    { tokens := [ERROR], bytesReceived := 0, earlyClose := false,
      reportedSuccess := false, openedDest := false, dirsAfter := dirs }
  | (HeaderResult.parsed _name size, rest) =>
    let dirs2 := makedirs_exist_ok dirs receivedFilesDir
    let loop := receiveLoop size 0 rest
    { tokens := [METADATA_OK, OK], bytesReceived := loop.1,
      earlyClose := loop.2.1, reportedSuccess := true,
      openedDest := true, dirsAfter := dirs2 }

/-- The metadata header exactly as send_file emits it, lines 28 to 39 of
file_client.py: 4-byte big-endian name length, the name bytes, 8-byte
big-endian file size. -/
def encodeHeader (name : List Nat) (size : Nat) : List Nat :=
  packBE 4 name.length ++ name ++ packBE 8 size

/-- The streaming loop of send_file, lines 50 to 66 of file_client.py:
while bytes_sent is below the declared size, read up to 4096 bytes from
the source file; an empty read breaks out of the loop; otherwise the
chunk is sent on the connection and counted.  Returns the total payload
bytes sent. -/
def sendLoop (filesize sent : Nat) (source : List Nat) : Nat :=
  if sent < filesize then
    let chunk := source.take 4096
    if hd : chunk = [] then sent
    else sendLoop filesize (sent + chunk.length) (source.drop 4096)
  else sent
termination_by source.length
decreasing_by
  simp_wf
  have hs : source ≠ [] := by
    intro he
    apply hd
    show List.take 4096 source = []
    rw [he]
    rfl
  have hpos : 0 < source.length := List.length_pos.mpr hs
  omega

/-- Result variants of one send_file run: the early False return on a
missing file, the False return on a metadata acknowledgment other than
METADATA_OK, and the True or False return decided by the final token. -/
inductive SendOutcome
  | fileNotFound
  | metadataRejected
  | success
  | finalRejected
  deriving DecidableEq

/-- Observable behavior of one send_file run: the returned outcome,
whether a socket was created, the header bytes written to the connection
(empty when none were), the number of payload bytes written after the
header, and whether the run reached the wait for the final token. -/
structure SendRun where
  outcome : SendOutcome
  socketCreated : Bool
  headerBytes : List Nat
  payloadSent : Nat
  waitedFinalAck : Bool
  deriving DecidableEq

/-- Model of send_file in file_client.py, lines 6 to 80: fileExists is
the os.path.exists check, name the basename bytes, declaredSize the
os.path.getsize result trusted for the whole session, source the bytes
the opened file actually yields when read during the loop, metadataAck
and finalAck the byte strings the two recv(1024) calls return.  A missing
file returns before any socket exists; a metadata acknowledgment other
than METADATA_OK returns False after the header but before any payload
byte; otherwise the loop runs and the final token decides the result. -/
def send_file (fileExists : Bool) (name : List Nat) (declaredSize : Nat)
    (source : List Nat) (metadataAck finalAck : List Nat) : SendRun :=
  if fileExists = false then
    { outcome := SendOutcome.fileNotFound, socketCreated := false,
      headerBytes := [], payloadSent := 0, waitedFinalAck := false }
  else if metadataAck ≠ METADATA_OK then
    { outcome := SendOutcome.metadataRejected, socketCreated := true,
      headerBytes := encodeHeader name declaredSize, payloadSent := 0,
      waitedFinalAck := false }
  else
    { outcome := if finalAck = OK then SendOutcome.success
                 else SendOutcome.finalRejected,
      socketCreated := true,
      headerBytes := encodeHeader name declaredSize,
      payloadSent := sendLoop declaredSize 0 source,
      waitedFinalAck := true }

/-- Exceptional behavior of one accepted connection, abstracting where
receive_file can raise: bodyRaises is an exception anywhere inside the
try block (a struct.unpack failure, a decode failure, a filesystem or
socket error), errorSendRaises is the send of the ERROR token inside the
except handler itself raising (for instance a broken pipe after the peer
vanished). -/
structure ConnBehavior where
  bodyRaises : Bool
  errorSendRaises : Bool
  deriving DecidableEq

/-- Whether an exception escapes receive_file, lines 9 to 64 of
file_server.py: the except clause catches every exception from the try
block, but its own conn.send of ERROR is not protected, so an exception
raised there propagates out of receive_file (the finally clause closing
the connection runs first and is modelled as non-raising). -/
def sessionEscapes (c : ConnBehavior) : Bool :=
  c.bodyRaises && c.errorSendRaises

/-- The accept loop of start_server, lines 82 to 93 of file_server.py,
run over a finite schedule of incoming connections: each connection is
handed to receive_file in sequence; the loop catches only
KeyboardInterrupt, so any exception escaping receive_file terminates it.
Returns the number of connections actually dispatched and whether the
loop ended by a propagated exception. -/
def acceptLoop : List ConnBehavior → Nat × Bool
  | [] => (0, false)
  | c :: rest =>
    if sessionEscapes c then (1, true)
    else
      let r := acceptLoop rest
      (r.1 + 1, r.2)

theorem recv_sum (n : Nat) (frags : List (List Nat)) :
    ((recv n frags).2.map List.length).sum + (recv n frags).1.length
      = (frags.map List.length).sum := by
  match frags with
  | [] => simp [recv]
  | f :: rest =>
    simp only [recv]
    split
    next hleft =>
      have hle : f.length ≤ n := by
        have hlen := congrArg List.length hleft
        simp at hlen
        omega
      simp [List.length_take]
      omega
    next hleft =>
      have hlt : 0 < (List.drop n f).length := List.length_pos.mpr hleft
      simp [List.length_take, List.length_drop] at *
      omega

theorem recv_keeps_nonempty (n : Nat) (frags : List (List Nat))
    (h : ∀ f ∈ frags, f ≠ []) : ∀ g ∈ (recv n frags).2, g ≠ [] := by
  match frags with
  | [] => simp [recv]
  | f :: rest =>
    intro g hg
    simp only [recv] at hg
    split at hg
    · exact h g (List.mem_cons_of_mem f hg)
    next hleft =>
      rcases List.mem_cons.mp hg with hgl | hgr
      · rw [hgl]
        exact hleft
      · exact h g (List.mem_cons_of_mem f hgr)


theorem receiveLoop_ge (S r : Nat) (frags : List (List Nat)) :
    r ≤ (receiveLoop S r frags).1 := by
  induction r, frags using receiveLoop.induct S with
  | case1 r frags h req rr hd =>
    have hd2 : (recv (min 4096 (S - r)) frags).1 = [] := hd
    clear hd
    rw [receiveLoop]
    simp [h, hd2]
  | case2 r frags h req rr hd ih =>
    have hd2 : ¬(recv (min 4096 (S - r)) frags).1 = [] := hd
    have ih2 : r + (recv (min 4096 (S - r)) frags).1.length
        ≤ (receiveLoop S (r + (recv (min 4096 (S - r)) frags).1.length)
            (recv (min 4096 (S - r)) frags).2).1 := ih
    clear ih hd
    rw [receiveLoop]
    simp [h, hd2]
    omega
  | case3 r frags h =>
    rw [receiveLoop]
    simp [h]

theorem receiveLoop_le (S r : Nat) (frags : List (List Nat)) (hr : r ≤ S) :
    (receiveLoop S r frags).1 ≤ S := by
  induction r, frags using receiveLoop.induct S with
  | case1 r frags h req rr hd =>
    have hd2 : (recv (min 4096 (S - r)) frags).1 = [] := hd
    clear hd
    rw [receiveLoop]
    simp [h, hd2]
    omega
  | case2 r frags h req rr hd ih =>
    have hd2 : ¬(recv (min 4096 (S - r)) frags).1 = [] := hd
    have hlen := recv_length_le (min 4096 (S - r)) frags
    have ih2 : (receiveLoop S (r + (recv (min 4096 (S - r)) frags).1.length)
        (recv (min 4096 (S - r)) frags).2).1 ≤ S :=
      ih (show r + (recv (min 4096 (S - r)) frags).1.length ≤ S by omega)
    clear ih hd
    rw [receiveLoop]
    simp [h, hd2]
    omega
  | case3 r frags h =>
    rw [receiveLoop]
    simp [h]
    omega

theorem receiveLoop_no_break (S r : Nat) (frags : List (List Nat)) (hr : r ≤ S)
    (hb : (receiveLoop S r frags).2.1 = false) :
    (receiveLoop S r frags).1 = S := by
  induction r, frags using receiveLoop.induct S with
  | case1 r frags h req rr hd =>
    have hd2 : (recv (min 4096 (S - r)) frags).1 = [] := hd
    clear hd
    rw [receiveLoop] at hb
    simp [h, hd2] at hb
  | case2 r frags h req rr hd ih =>
    have hd2 : ¬(recv (min 4096 (S - r)) frags).1 = [] := hd
    have hlen := recv_length_le (min 4096 (S - r)) frags
    have ih2 : r + (recv (min 4096 (S - r)) frags).1.length ≤ S →
        (receiveLoop S (r + (recv (min 4096 (S - r)) frags).1.length)
          (recv (min 4096 (S - r)) frags).2).2.1 = false →
        (receiveLoop S (r + (recv (min 4096 (S - r)) frags).1.length)
          (recv (min 4096 (S - r)) frags).2).1 = S := ih
    clear ih hd
    rw [receiveLoop] at hb ⊢
    simp [h, hd2] at hb ⊢
    exact ih2 (by omega) hb
  | case3 r frags h =>
    rw [receiveLoop] at hb ⊢
    simp [h] at hb ⊢
    omega

theorem receiveLoop_requests (S r : Nat) (frags : List (List Nat)) :
    ∀ p ∈ (receiveLoop S r frags).2.2, p.2 = min 4096 p.1 := by
  induction r, frags using receiveLoop.induct S with
  | case1 r frags h req rr hd =>
    have hd2 : (recv (min 4096 (S - r)) frags).1 = [] := hd
    clear hd
    rw [receiveLoop]
    simp [h, hd2]
  | case2 r frags h req rr hd ih =>
    have hd2 : ¬(recv (min 4096 (S - r)) frags).1 = [] := hd
    have ih2 : ∀ p ∈ (receiveLoop S (r + (recv (min 4096 (S - r)) frags).1.length)
        (recv (min 4096 (S - r)) frags).2).2.2, p.2 = min 4096 p.1 := ih
    clear ih hd
    rw [receiveLoop]
    simp only [dif_pos h]
    intro p hp
    simp only [hd2, dite_eq_ite, if_neg hd2] at hp
    rcases List.mem_cons.mp hp with hp1 | hp2
    · rw [hp1]
    · exact ih2 p hp2
  | case3 r frags h =>
    rw [receiveLoop]
    simp [h]

theorem receiveLoop_full (S r : Nat) (frags : List (List Nat))
    (hne : ∀ f ∈ frags, f ≠ [])
    (hsum : r + (frags.map List.length).sum = S) :
    (receiveLoop S r frags).1 = S ∧ (receiveLoop S r frags).2.1 = false := by
  induction r, frags using receiveLoop.induct S with
  | case1 r frags h req rr hd =>
    have hd2 : (recv (min 4096 (S - r)) frags).1 = [] := hd
    clear hd
    exfalso
    match frags with
    | [] =>
      simp at hsum
      omega
    | f :: rest =>
      have hf : f ≠ [] := hne f (List.mem_cons_self f rest)
      have hreq : 0 < min 4096 (S - r) := by omega
      simp only [recv] at hd2
      rw [List.take_eq_nil_iff] at hd2
      rcases hd2 with hd2 | hd2
      · omega
      · exact hf hd2
  | case2 r frags h req rr hd ih =>
    have hd2 : ¬(recv (min 4096 (S - r)) frags).1 = [] := hd
    have hs := recv_sum (min 4096 (S - r)) frags
    have ih2 := ih (recv_keeps_nonempty (min 4096 (S - r)) frags hne)
      (show r + (recv (min 4096 (S - r)) frags).1.length
          + ((recv (min 4096 (S - r)) frags).2.map List.length).sum = S by omega)
    clear ih hd
    rw [receiveLoop]
    simp [h, hd2]
    exact ih2
  | case3 r frags h =>
    match frags with
    | [] =>
      rw [receiveLoop]
      simp at hsum
      simp [h]
      omega
    | f :: rest =>
      exfalso
      have hf : f ≠ [] := hne f (List.mem_cons_self f rest)
      have hfl : 0 < f.length := List.length_pos.mpr hf
      simp at hsum
      omega

theorem sendLoop_truncated (S sent : Nat) (source : List Nat)
    (h : sent + source.length ≤ S) :
    sendLoop S sent source = sent + source.length := by
  induction sent, source using sendLoop.induct S with
  | case1 sent source hlt ch hd =>
    have hd2 : List.take 4096 source = [] := hd
    clear hd
    have hsrc : source = [] := by
      rcases List.take_eq_nil_iff.mp hd2 with hd1 | hd1
      · exact absurd hd1 (by omega)
      · exact hd1
    rw [sendLoop]
    simp [hlt, hsrc]
  | case2 sent source hlt ch hd ih =>
    have hd2 : ¬List.take 4096 source = [] := hd
    have ih0 : sendLoop S (sent + (List.take 4096 source).length)
        (List.drop 4096 source)
        = sent + (List.take 4096 source).length
          + (List.drop 4096 source).length :=
      ih (show sent + (List.take 4096 source).length
            + (List.drop 4096 source).length ≤ S by
          simp [List.length_take, List.length_drop]
          omega)
    clear ih hd
    rw [List.length_take] at ih0
    rw [sendLoop]
    simp [hlt, hd2]
    rw [ih0]
    simp [List.length_drop]
    omega
  | case3 sent source hlt =>
    rw [sendLoop]
    simp only [if_neg hlt]
    omega

/-- C1: the claim states that when the sender closes after only k < S
payload bytes, the session ends in an incomplete-transfer error, reports
no success and sends no OK token.  Evaluating receive_file at the failing
input (name byte 97, declared size 2, a single payload byte 55 delivered
before the close) shows the code instead leaves the loop on the empty
recv, prints the success message and sends METADATA_OK followed by OK
with bytes_received equal to 1. -/
theorem C1_code_sends_OK_after_early_close :
    receive_file [encodeHeader [97] 2 ++ [55]] []
      = { tokens := [METADATA_OK, OK], bytesReceived := 1, earlyClose := true,
          reportedSuccess := true, openedDest := true,
          dirsAfter := [receivedFilesDir] } := by
  simp [receive_file, receiveHeader, encodeHeader, packBE, unpackBE, recv,
    receiveLoop, makedirs_exist_ok, METADATA_OK, OK, receivedFilesDir]

/-- C2 counterexample: with declared size 3 and only two payload bytes
delivered before the peer closed, the session still completes as a
success in the code (success message printed, OK token sent) while
bytes_received is 2, strictly fewer than declared, so the claim that a
successful completion always has bytes_received equal to the declared
size fails on the code. -/
theorem C2_success_outcome_with_fewer_bytes :
    (receive_file [encodeHeader [98] 3 ++ [55, 56]] [receivedFilesDir]).reportedSuccess
        = true ∧
    (receive_file [encodeHeader [98] 3 ++ [55, 56]] [receivedFilesDir]).tokens
        = [METADATA_OK, OK] ∧
    (receive_file [encodeHeader [98] 3 ++ [55, 56]] [receivedFilesDir]).bytesReceived
        = 2 := by
  refine ⟨?_, ?_, ?_⟩ <;>
    simp [receive_file, receiveHeader, encodeHeader, packBE, unpackBE, recv,
      receiveLoop, makedirs_exist_ok, METADATA_OK, OK, receivedFilesDir]

/-- C2 amended: across the receive loop bytes_received is monotonically
non-decreasing and never exceeds the declared size, and when the loop
exits without an early close it equals the declared size exactly; the
code however also treats an early-close exit as success, and there
bytes_received may be smaller than declared. -/
theorem C2_monotone_bounded_exact (S r : Nat) (frags : List (List Nat))
    (h : r ≤ S) :
    r ≤ (receiveLoop S r frags).1 ∧ (receiveLoop S r frags).1 ≤ S ∧
      ((receiveLoop S r frags).2.1 = false → (receiveLoop S r frags).1 = S) :=
  ⟨receiveLoop_ge S r frags, receiveLoop_le S r frags h,
    fun hb => receiveLoop_no_break S r frags h hb⟩

theorem C2_monotone_bounded_exact_witness :
    (0 : Nat) ≤ 5 ∧
      (0 ≤ (receiveLoop 5 0 [[1, 2, 3]]).1 ∧ (receiveLoop 5 0 [[1, 2, 3]]).1 ≤ 5 ∧
        ((receiveLoop 5 0 [[1, 2, 3]]).2.1 = false →
          (receiveLoop 5 0 [[1, 2, 3]]).1 = 5)) :=
  ⟨by omega, C2_monotone_bounded_exact 5 0 [[1, 2, 3]] (by omega)⟩

/-- C3: every recv call issued by the receive loop requests exactly
min 4096 remaining bytes, never more than the remaining owed bytes, and
when the transport delivers all S payload bytes, in whatever non-empty
fragments, the loop terminates normally having counted exactly S bytes. -/
theorem C3_bounded_requests_exact_termination (S : Nat)
    (frags : List (List Nat)) (hne : ∀ f ∈ frags, f ≠ [])
    (hsum : (frags.map List.length).sum = S) :
    (∀ p ∈ (receiveLoop S 0 frags).2.2, p.2 = min 4096 p.1) ∧
    (receiveLoop S 0 frags).1 = S ∧ (receiveLoop S 0 frags).2.1 = false :=
  ⟨receiveLoop_requests S 0 frags, receiveLoop_full S 0 frags hne (by omega)⟩

theorem C3_bounded_requests_exact_termination_witness :
    (∀ f ∈ ([[1, 2], [3], [4, 5]] : List (List Nat)), f ≠ []) ∧
    (([[1, 2], [3], [4, 5]] : List (List Nat)).map List.length).sum = 5 ∧
    ((∀ p ∈ (receiveLoop 5 0 [[1, 2], [3], [4, 5]]).2.2, p.2 = min 4096 p.1) ∧
      (receiveLoop 5 0 [[1, 2], [3], [4, 5]]).1 = 5 ∧
      (receiveLoop 5 0 [[1, 2], [3], [4, 5]]).2.1 = false) :=
  ⟨by decide, by decide,
    C3_bounded_requests_exact_termination 5 [[1, 2], [3], [4, 5]]
      (by decide) (by decide)⟩

/-- C4 counterexample: all fourteen header bytes for name [97, 98] with
size 5 are delivered, split as fragments of five and nine bytes; the
single bounded recv calls hand the parser one name byte and a size field
shifted by one byte, so the decoded header is not the encoded pair - the
header reads are not exact-byte-count reads. -/
theorem C4_fragmented_header_misparsed :
    ([[0, 0, 0, 2, 97], [98, 0, 0, 0, 0, 0, 0, 0, 5]] : List (List Nat)).flatten
        = encodeHeader [97, 98] 5 ∧
    (receiveHeader [[0, 0, 0, 2, 97], [98, 0, 0, 0, 0, 0, 0, 0, 5]]).1
        = HeaderResult.parsed [97] 7061644215716937728 ∧
    (receiveHeader [[0, 0, 0, 2, 97], [98, 0, 0, 0, 0, 0, 0, 0, 5]]).1
        ≠ HeaderResult.parsed [97, 98] 5 := by
  refine ⟨?_, ?_, ?_⟩ <;> decide

/-- C4 amended: each header field is read with one bounded recv that may
return fewer bytes than requested; when the first recv yields no bytes at
all the session returns silently without any error token (not a distinct
incomplete-header error), and when a fixed-width field comes back with
the wrong byte count the struct.unpack exception is answered with the
generic ERROR token. -/
theorem C4_header_short_read_behavior (frags : List (List Nat))
    (dirs : List String) :
    ((recv 4 frags).1 = [] → (receive_file frags dirs).tokens = []) ∧
    ((recv 4 frags).1 ≠ [] → (recv 4 frags).1.length ≠ 4 →
      (receive_file frags dirs).tokens = [ERROR]) := by
  constructor
  · intro h
    have hh : receiveHeader frags = (HeaderResult.noData, (recv 4 frags).2) := by
      simp [receiveHeader, h]
    simp [receive_file, hh]
  · intro h1 h2
    have hh : receiveHeader frags = (HeaderResult.parseError, (recv 4 frags).2) := by
      simp [receiveHeader, h1, h2]
    simp [receive_file, hh]

theorem C4_header_short_read_behavior_witness :
    (receive_file [] ["d"]).tokens = [] ∧
    (receive_file [[0, 0]] []).tokens = [ERROR] :=
  ⟨(C4_header_short_read_behavior [] ["d"]).1 (by decide),
   (C4_header_short_read_behavior [[0, 0]] []).2 (by decide) (by decide)⟩

/-- C5: whenever the token the sender receives at the metadata
checkpoint differs from the exact literal METADATA_OK, send_file returns
the failure outcome for a rejected metadata acknowledgment and writes
zero payload bytes to the connection. -/
theorem C5_non_metadata_ok_aborts_before_payload (name : List Nat) (S : Nat)
    (source metadataAck finalAck : List Nat) (h : metadataAck ≠ METADATA_OK) :
    (send_file true name S source metadataAck finalAck).outcome
        = SendOutcome.metadataRejected ∧
    (send_file true name S source metadataAck finalAck).payloadSent = 0 := by
  simp [send_file, h]

theorem C5_non_metadata_ok_aborts_before_payload_witness :
    ERROR ≠ METADATA_OK ∧
    ((send_file true [97] 5 [1, 2, 3] ERROR OK).outcome
        = SendOutcome.metadataRejected ∧
      (send_file true [97] 5 [1, 2, 3] ERROR OK).payloadSent = 0) :=
  ⟨by decide,
   C5_non_metadata_ok_aborts_before_payload [97] 5 [1, 2, 3] ERROR OK (by decide)⟩

/-- C6: for any name of byte length at most 65535 and any size below two
to the 64, encoding the metadata header as send_file does and parsing it
as receive_file does (whole header delivered) yields the original name
and size with nothing left in the queue. -/
theorem C6_header_round_trip (name : List Nat) (S : Nat)
    (hL : name.length ≤ 65535) (hS : S < 2 ^ 64) :
    receiveHeader [encodeHeader name S] = (HeaderResult.parsed name S, []) := by
  have h4 : (packBE 4 name.length).length = 4 := packBE_length 4 name.length
  have h8 : (packBE 8 S).length = 8 := packBE_length 8 S
  have hp4ne : packBE 4 name.length ≠ [] := by
    intro he
    rw [he] at h4
    simp at h4
  have hp8ne : packBE 8 S ≠ [] := by
    intro he
    rw [he] at h8
    simp at h8
  have hnp8ne : name ++ packBE 8 S ≠ [] := by
    simp [hp8ne]
  have hr1 : recv 4 [encodeHeader name S]
      = (packBE 4 name.length, [name ++ packBE 8 S]) := by
    simp only [recv, encodeHeader, List.append_assoc]
    rw [List.take_left' h4, List.drop_left' h4]
    simp [hnp8ne]
  have hflen : unpackBE (packBE 4 name.length) = name.length := by
    rw [unpackBE_packBE]
    have h32 : (256 : Nat) ^ 4 = 4294967296 := by norm_num
    exact Nat.mod_eq_of_lt (by omega)
  have hr2 : recv name.length [name ++ packBE 8 S] = (name, [packBE 8 S]) := by
    simp only [recv]
    rw [List.take_left' rfl, List.drop_left' rfl]
    simp [hp8ne]
  have hr3 : recv 8 [packBE 8 S] = (packBE 8 S, []) := by
    simp only [recv]
    rw [List.take_of_length_le (by omega), List.drop_eq_nil_of_le (by omega)]
    simp
  have hSz : unpackBE (packBE 8 S) = S := by
    rw [unpackBE_packBE]
    have h64 : (256 : Nat) ^ 8 = 2 ^ 64 := by norm_num
    exact Nat.mod_eq_of_lt (by omega)
  simp only [receiveHeader, hr1]
  simp [hp4ne, h4, hflen, hr2, hr3, h8, hSz]

theorem C6_header_round_trip_witness :
    ([97, 98] : List Nat).length ≤ 65535 ∧ 2000 < 2 ^ 64 ∧
    receiveHeader [encodeHeader [97, 98] 2000]
        = (HeaderResult.parsed [97, 98] 2000, []) :=
  ⟨by decide, by decide, C6_header_round_trip [97, 98] 2000 (by decide) (by decide)⟩

/-- C7: when the source file yields its last byte before the declared
size is reached (source truncated mid-transfer), send_file does not
abort there: the streaming loop exits having sent exactly the bytes the
source yielded, and the run proceeds to wait for the final
acknowledgment token. -/
theorem C7_truncated_source_proceeds_to_final_ack (name : List Nat) (S : Nat)
    (source finalAck : List Nat) (h : source.length < S) :
    (send_file true name S source METADATA_OK finalAck).payloadSent
        = source.length ∧
    (send_file true name S source METADATA_OK finalAck).waitedFinalAck = true := by
  have hloop : sendLoop S 0 source = source.length := by
    have := sendLoop_truncated S 0 source (by omega)
    simpa using this
  simp [send_file, hloop]

theorem C7_truncated_source_proceeds_to_final_ack_witness :
    ([1, 2, 3] : List Nat).length < 5 ∧
    ((send_file true [97] 5 [1, 2, 3] METADATA_OK OK).payloadSent = 3 ∧
      (send_file true [97] 5 [1, 2, 3] METADATA_OK OK).waitedFinalAck = true) :=
  ⟨by decide,
   C7_truncated_source_proceeds_to_final_ack [97] 5 [1, 2, 3] OK (by decide)⟩

/-- C8 counterexample: a schedule of two connections where the first
session raises inside its try block and the ERROR-reporting send of its
except handler raises as well; the exception escapes receive_file and
terminates the accept loop, so only one connection is handled and the
second is never accepted. -/
theorem C8_error_report_failure_kills_accept_loop :
    acceptLoop [⟨true, true⟩, ⟨false, false⟩] = (1, true) := by decide

/-- C8 amended: an error raised inside the try block of receive_file is
confined to its session provided the ERROR-reporting send of the except
handler does not itself raise; under that proviso the accept loop
dispatches every scheduled connection and never ends by a propagated
exception. -/
theorem C8_confinement_without_report_failure (conns : List ConnBehavior)
    (h : ∀ c ∈ conns, c.errorSendRaises = false) :
    acceptLoop conns = (conns.length, false) := by
  induction conns with
  | nil => rfl
  | cons c rest ih =>
    have hc : sessionEscapes c = false := by
      simp [sessionEscapes, h c (List.mem_cons_self c rest)]
    simp [acceptLoop, hc, ih (fun d hd => h d (List.mem_cons_of_mem c hd))]

theorem C8_confinement_without_report_failure_witness :
    (∀ c ∈ [ConnBehavior.mk true false, ConnBehavior.mk false false],
        c.errorSendRaises = false) ∧
    acceptLoop [ConnBehavior.mk true false, ConnBehavior.mk false false]
        = (2, false) :=
  ⟨by decide,
   C8_confinement_without_report_failure
     [ConnBehavior.mk true false, ConnBehavior.mk false false] (by decide)⟩

/-- C9: receive_file runs makedirs with exist_ok on received_files before
opening the destination: whenever the session opens the destination file
the directory exists in the filesystem state, and a filesystem that
already contained it is left unchanged. -/
theorem C9_output_dir_created_before_open (frags : List (List Nat))
    (dirs : List String) (h : (receive_file frags dirs).openedDest = true) :
    receivedFilesDir ∈ (receive_file frags dirs).dirsAfter ∧
    (receivedFilesDir ∈ dirs → (receive_file frags dirs).dirsAfter = dirs) := by
  match hh : receiveHeader frags with
  | (HeaderResult.noData, rest) =>
    simp [receive_file, hh] at h
  | (HeaderResult.parseError, rest) =>
    simp [receive_file, hh] at h
  | (HeaderResult.parsed nm sz, rest) =>
    refine ⟨?_, ?_⟩
    · by_cases hm : receivedFilesDir ∈ dirs
      · simp [receive_file, hh, makedirs_exist_ok, hm]
      · simp [receive_file, hh, makedirs_exist_ok, hm]
    · intro hm
      simp [receive_file, hh, makedirs_exist_ok, hm]

theorem C9_output_dir_created_before_open_witness :
    (receive_file [encodeHeader [97] 0] []).openedDest = true ∧
    (receivedFilesDir ∈ (receive_file [encodeHeader [97] 0] []).dirsAfter ∧
      (receivedFilesDir ∈ ([] : List String) →
        (receive_file [encodeHeader [97] 0] []).dirsAfter = [])) :=
  ⟨by simp [receive_file, receiveHeader, encodeHeader, packBE, unpackBE, recv,
      receiveLoop, makedirs_exist_ok],
   C9_output_dir_created_before_open [encodeHeader [97] 0] []
     (by simp [receive_file, receiveHeader, encodeHeader, packBE, unpackBE, recv,
        receiveLoop, makedirs_exist_ok])⟩

/-- C10: when the existence check on the path fails, send_file returns
the file-not-found failure having created no socket, written no header
and no payload bytes to any connection, and without waiting on the
network. -/
theorem C10_missing_file_no_network (name : List Nat) (S : Nat)
    (source metadataAck finalAck : List Nat) :
    send_file false name S source metadataAck finalAck
      = { outcome := SendOutcome.fileNotFound, socketCreated := false,
          headerBytes := [], payloadSent := 0, waitedFinalAck := false } := by
  simp [send_file]

end FileTransfer
